import Mathlib

/-!
# Verification of the PurpleAir particulate-matter tracking system

A shallow embedding of the core of `purple_air_system.py`: the `DataSet`
class (readings, zip-code activation flags, time labels, header), its
cross-table statistics computation and the cross-table rendering.

Python floats are modelled as exact rationals (`ℚ`); Python dicts (which
are insertion-ordered) as association lists `List (String × Bool)`;
Python exceptions as `Except Err`.  The interactive menu, CSV parsing and
process I/O are out of scope (the spec's excluded collaborators): `load`
receives the already-parsed ordered rows, and `display_cross_table`
returns the list of printed lines instead of writing to stdout.
-/

set_option autoImplicit false

namespace PurpleAir

/-- One air-quality reading: the tuple
`(row['Approximate Zip Code'], row['Reading Time String'], concentration)`
built by `load_file`. -/
structure Reading where
  zip : String
  time : String
  conc : ℚ
deriving DecidableEq, Repr

/-- The exception kinds the embedded methods can raise:
`EmptyDatasetError`, `NoMatchingItems`, and Python's built-in
`ValueError` (header setter) and `LookupError` (`toggle_zip`). -/
inductive Err where
  | emptyDatasetError
  | noMatchingItems
  | valueError
  | lookupError
deriving DecidableEq, Repr

/-- The `Stats` enum: `MIN = 0`, `AVG = 1`, `MAX = 2`. -/
inductive Stats where
  | MIN
  | AVG
  | MAX
deriving DecidableEq, Repr

/-- `Stats.value`: the numeric value of each enum member. -/
def Stats.value : Stats → Nat
  | .MIN => 0
  | .AVG => 1
  | .MAX => 2

/-- Python tuple indexing `concentrations[i]` on the `(min, avg, max)`
triple returned by `_cross_table_statistics`. -/
def tupleIndex (c : ℚ × ℚ × ℚ) (i : Nat) : ℚ :=
  if i = 0 then c.1 else if i = 1 then c.2.1 else c.2.2

/-- The `DataSet` state: `_data` (None until the first load), `_header`,
`_zips` (insertion-ordered dict zip ↦ active flag) and `_times`. -/
structure DataSet where
  data : Option (List Reading)
  header : String
  zips : List (String × Bool)
  times : List String
deriving DecidableEq, Repr

/-- `DataSet.__init__(self, header='')`: note that in
`purple_air_system.py` the constructor assigns `self._header = header`
directly, bypassing the validating property setter. -/
def DataSet.init (header : String) : DataSet :=
  { data := none, header := header, zips := [], times := [] }

/-- Python dict lookup `d[k]` / membership `k in d` on the insertion-ordered
`_zips` dict, embedded as an association list. -/
def zipLookup (d : List (String × Bool)) (k : String) : Option Bool :=
  match d with
  | [] => none
  | p :: rest => if p.1 = k then some p.2 else zipLookup rest k

/-- The `header` property setter: accepts strings of length at most
`max_header_length = 30`, otherwise raises `ValueError`. -/
def DataSet.setHeader (ds : DataSet) (header : String) : Except Err DataSet :=
  if header.length ≤ 30 then .ok { ds with header := header } else .error .valueError

/-- The object state after calling the header setter: on `ValueError` the
exception propagates and the object is left unchanged. -/
def DataSet.applySetHeader (ds : DataSet) (header : String) : DataSet :=
  match ds.setHeader header with
  | .ok d => d
  | .error _ => ds

/-- `DataSet.get_zips`: returns a copy of the `_zips` dict. -/
def DataSet.get_zips (ds : DataSet) : List (String × Bool) :=
  ds.zips

/-- `DataSet.toggle_zip`: raises `LookupError` when the target zip is not a
key of `_zips`, otherwise flips that key's flag in place. -/
def DataSet.toggle_zip (ds : DataSet) (target : String) : Except Err DataSet :=
  match zipLookup ds.zips target with
  | none => .error .lookupError
  | some _ =>
      .ok { ds with zips := ds.zips.map (fun p => if p.1 = target then (p.1, !p.2) else p) }

/-- The object state after calling `toggle_zip`: on `LookupError` the
exception propagates and the object is left unchanged. -/
def DataSet.applyToggle (ds : DataSet) (target : String) : DataSet :=
  match ds.toggle_zip target with
  | .ok d => d
  | .error _ => ds

/-- One step of the dict comprehension `{item: True for item in zip_code}`:
inserting a key maps it to `True`; a fresh key is appended (insertion
order), an existing key keeps its position. -/
def dictInsertTrue (d : List (String × Bool)) (k : String) : List (String × Bool) :=
  if (zipLookup d k).isSome then d.map (fun p => if p.1 = k then (p.1, true) else p)
  else d ++ [(k, true)]

/-- `_initialize_labels`, zips part: `{item[0]: True for item in self._data}`. -/
def buildZips (rows : List Reading) : List (String × Bool) :=
  rows.foldl (fun d r => dictInsertTrue d r.zip) []

/-- One step of accumulating the distinct members of a string sequence in
first-occurrence order. -/
def insertNew (acc : List String) (t : String) : List String :=
  if t ∈ acc then acc else acc ++ [t]

/-- `_initialize_labels`, times part: `list(set(item[1] for item in data))`.
Python's set iteration order is unspecified; the embedding fixes the
first-occurrence order (the spec leaves this order open, requiring only
stability). -/
def buildTimes (rows : List Reading) : List String :=
  rows.foldl (fun acc r => insertNew acc r.time) []

/-- A load (`load_file` with its file I/O factored out, or
`load_default_data`): sets `self._data` to the parsed rows and calls
`_initialize_labels`, which rebuilds `_zips` and `_times` from scratch. -/
def DataSet.load (ds : DataSet) (rows : List Reading) : DataSet :=
  { ds with data := some rows, zips := buildZips rows, times := buildTimes rows }

/-- The list comprehension in `_cross_table_statistics`:
`[thing[2] for thing in self._data if thing[0] == d1 and thing[1] == d2]`. -/
def matchingConcentrations (rows : List Reading) (d1 d2 : String) : List ℚ :=
  (rows.filter (fun r => decide (r.zip = d1 ∧ r.time = d2))).map Reading.conc

/-- Python's `min` over a nonempty list, seeded with its head. -/
def pyMin (x : ℚ) (xs : List ℚ) : ℚ := xs.foldl min x

/-- Python's `max` over a nonempty list, seeded with its head. -/
def pyMax (x : ℚ) (xs : List ℚ) : ℚ := xs.foldl max x

/-- `DataSet._cross_table_statistics` (the spec's `statistics_for`):
raises `EmptyDatasetError` when `self._data is None`, `NoMatchingItems`
when no reading matches both descriptors, and otherwise returns
`(min(c), sum(c) / len(c), max(c))` over the matching concentrations. -/
def DataSet.cross_table_statistics (ds : DataSet) (d1 d2 : String) :
    Except Err (ℚ × ℚ × ℚ) :=
  match ds.data with
  | none => .error .emptyDatasetError
  | some rows =>
      match matchingConcentrations rows d1 d2 with
      | [] => .error .noMatchingItems
      | x :: xs =>
          .ok (pyMin x xs, (x :: xs).sum / ((x :: xs).length : ℚ), pyMax x xs)

/-- Right alignment in a field of width `w`: the f-string format ` >w`. -/
def padLeft (w : Nat) (s : String) : String :=
  String.mk (List.replicate (w - s.length) ' ') ++ s

/-- Left alignment in a field of width `w`: the f-string format for strings
such as `{zip_code:5}`. -/
def padRight (w : Nat) (s : String) : String :=
  s ++ String.mk (List.replicate (w - s.length) ' ')

/-- Fixed-point rendering with two decimal places, the `.2f` format
applied to the exact rational value. -/
def fmtFixed2 (q : ℚ) : String :=
  let n : ℤ := ⌊q * 100 + 1 / 2⌋
  let sign := if n < 0 then "-" else ""
  let m := n.natAbs
  let r := m % 100
  sign ++ toString (m / 100) ++ "." ++ (if r < 10 then "0" else "") ++ toString r

/-- One cell of the cross table: the `try`/`except NoMatchingItems` block of
`display_cross_table`.  Only `NoMatchingItems` is caught and rendered as
`N/A`; any other exception would propagate out of the method. -/
def cellFor (ds : DataSet) (stat : Stats) (z t : String) : Except Err String :=
  match ds.cross_table_statistics z t with
  | .ok c => .ok (padLeft 10 (fmtFixed2 (tupleIndex c stat.value)))
  | .error .noMatchingItems => .ok (padLeft 10 "N/A")
  | .error e => .error e

/-- `DataSet.display_cross_table`, returning the printed lines.  The guard
is Python's `if not self._data:`, which is truthy both when `_data` is
`None` and when it is an empty list. -/
def DataSet.display_cross_table (ds : DataSet) (stat : Stats) :
    Except Err (List String) :=
  match ds.data with
  | none => .ok ["Please load a dataset first"]
  | some rows =>
      if rows.isEmpty then .ok ["Please load a dataset first"]
      else do
        let headerLine := "     " ++ String.join (ds.times.map (padLeft 10))
        let activeZips := ds.zips.filter (fun p => p.2)
        let body ← activeZips.mapM (fun p => do
          let cells ← ds.times.mapM (fun t => cellFor ds stat p.1 t)
          pure (padRight 5 p.1 ++ String.join cells))
        pure (headerLine :: body)

/-- `get_zips` as a state transformer: the method body contains no field
assignment, so the post-state is the pre-state. -/
def DataSet.get_zips_run (ds : DataSet) : List (String × Bool) × DataSet :=
  (ds.get_zips, ds)

/-- `_cross_table_statistics` as a state transformer: the method body
contains no field assignment, so the post-state is the pre-state. -/
def DataSet.cross_table_statistics_run (ds : DataSet) (d1 d2 : String) :
    Except Err (ℚ × ℚ × ℚ) × DataSet :=
  (ds.cross_table_statistics d1 d2, ds)

/-- `display_cross_table` as a state transformer: the method body contains
no field assignment, so the post-state is the pre-state. -/
def DataSet.display_cross_table_run (ds : DataSet) (stat : Stats) :
    Except Err (List String) × DataSet :=
  (ds.display_cross_table stat, ds)

/-- The distinct members of a string sequence in first-occurrence order
(used to state the `zip_states` key-order property). -/
def firstSeen (l : List String) : List String :=
  l.foldl insertNew []

/-- Modelled from the spec (§4.2 Report Presenter), one cell: the selected
element of `statistics_for` formatted to two decimal places, or `N/A`
right-aligned in the same width when that call fails. -/
def specCell (ds : DataSet) (stat : Stats) (z t : String) : String :=
  match ds.cross_table_statistics z t with
  | .ok c => padLeft 10 (fmtFixed2 (tupleIndex c stat.value))
  | .error _ => padLeft 10 "N/A"

/-- Modelled from the spec (§4.2 Report Presenter): columns are the time
labels, rows are the active zip codes in `zip_states` iteration order
(inactive zips omitted entirely), each cell as in `specCell`. -/
def renderSpec (ds : DataSet) (stat : Stats) : List String :=
  ("     " ++ String.join (ds.times.map (padLeft 10))) ::
    (ds.zips.filter (fun p => p.2)).map (fun p =>
      padRight 5 p.1 ++ String.join (ds.times.map (specCell ds stat p.1)))

/-! ## Helper lemmas about Python-style min / max / sum reductions -/

theorem pyMin_eq_cons (x y : ℚ) (ys : List ℚ) : pyMin x (y :: ys) = pyMin (min x y) ys := rfl

theorem pyMax_eq_cons (x y : ℚ) (ys : List ℚ) : pyMax x (y :: ys) = pyMax (max x y) ys := rfl

theorem pyMin_mem : ∀ (xs : List ℚ) (x : ℚ), pyMin x xs ∈ x :: xs := by
  intro xs
  induction xs with
  | nil => intro x; simp [pyMin]
  | cons y ys ih =>
    intro x
    have h := ih (min x y)
    rw [List.mem_cons] at h
    rw [pyMin_eq_cons]
    rcases h with h | h
    · rw [h]
      rcases min_choice x y with hm | hm <;> rw [hm] <;> simp
    · exact List.mem_cons_of_mem _ (List.mem_cons_of_mem _ h)

theorem pyMax_mem : ∀ (xs : List ℚ) (x : ℚ), pyMax x xs ∈ x :: xs := by
  intro xs
  induction xs with
  | nil => intro x; simp [pyMax]
  | cons y ys ih =>
    intro x
    have h := ih (max x y)
    rw [List.mem_cons] at h
    rw [pyMax_eq_cons]
    rcases h with h | h
    · rw [h]
      rcases max_choice x y with hm | hm <;> rw [hm] <;> simp
    · exact List.mem_cons_of_mem _ (List.mem_cons_of_mem _ h)

theorem pyMin_le_seed : ∀ (xs : List ℚ) (x : ℚ), pyMin x xs ≤ x := by
  intro xs
  induction xs with
  | nil => intro x; exact le_refl x
  | cons y ys ih =>
    intro x
    rw [pyMin_eq_cons]
    exact le_trans (ih (min x y)) (min_le_left x y)

theorem seed_le_pyMax : ∀ (xs : List ℚ) (x : ℚ), x ≤ pyMax x xs := by
  intro xs
  induction xs with
  | nil => intro x; exact le_refl x
  | cons y ys ih =>
    intro x
    rw [pyMax_eq_cons]
    exact le_trans (le_max_left x y) (ih (max x y))

theorem pyMin_le : ∀ (xs : List ℚ) (x y : ℚ), y ∈ x :: xs → pyMin x xs ≤ y := by
  intro xs
  induction xs with
  | nil =>
    intro x y hy
    rcases List.mem_cons.mp hy with h | h
    · rw [h]; exact pyMin_le_seed [] x
    · cases h
  | cons z zs ih =>
    intro x y hy
    rw [pyMin_eq_cons]
    rcases List.mem_cons.mp hy with h | h
    · rw [h]
      exact le_trans (pyMin_le_seed zs (min x z)) (min_le_left x z)
    · rcases List.mem_cons.mp h with h1 | h1
      · rw [h1]
        exact le_trans (pyMin_le_seed zs (min x z)) (min_le_right x z)
      · exact ih (min x z) y (List.mem_cons_of_mem _ h1)

theorem le_pyMax : ∀ (xs : List ℚ) (x y : ℚ), y ∈ x :: xs → y ≤ pyMax x xs := by
  intro xs
  induction xs with
  | nil =>
    intro x y hy
    rcases List.mem_cons.mp hy with h | h
    · rw [h]; exact seed_le_pyMax [] x
    · cases h
  | cons z zs ih =>
    intro x y hy
    rw [pyMax_eq_cons]
    rcases List.mem_cons.mp hy with h | h
    · rw [h]
      exact le_trans (le_max_left x z) (seed_le_pyMax zs (max x z))
    · rcases List.mem_cons.mp h with h1 | h1
      · rw [h1]
        exact le_trans (le_max_right x z) (seed_le_pyMax zs (max x z))
      · exact ih (max x z) y (List.mem_cons_of_mem _ h1)

theorem length_mul_le_sum : ∀ (l : List ℚ) (m : ℚ), (∀ y ∈ l, m ≤ y) →
    (l.length : ℚ) * m ≤ l.sum := by
  intro l
  induction l with
  | nil => intro m _; simp
  | cons x xs ih =>
    intro m h
    have hx : m ≤ x := h x (List.mem_cons_self x xs)
    have hs := ih m (fun y hy => h y (List.mem_cons_of_mem _ hy))
    have hcast : (((x :: xs).length : ℚ)) = (xs.length : ℚ) + 1 := by
      simp [List.length_cons]
    rw [hcast, List.sum_cons]
    nlinarith [hs, hx]

theorem sum_le_length_mul : ∀ (l : List ℚ) (M : ℚ), (∀ y ∈ l, y ≤ M) →
    l.sum ≤ (l.length : ℚ) * M := by
  intro l
  induction l with
  | nil => intro M _; simp
  | cons x xs ih =>
    intro M h
    have hx : x ≤ M := h x (List.mem_cons_self x xs)
    have hs := ih M (fun y hy => h y (List.mem_cons_of_mem _ hy))
    have hcast : (((x :: xs).length : ℚ)) = (xs.length : ℚ) + 1 := by
      simp [List.length_cons]
    rw [hcast, List.sum_cons]
    nlinarith [hs, hx]

/-- No matching concentration iff no reading matches both descriptors. -/
theorem matchingConcentrations_eq_nil (rows : List Reading) (z t : String) :
    matchingConcentrations rows z t = [] ↔ ∀ r ∈ rows, ¬(r.zip = z ∧ r.time = t) := by
  unfold matchingConcentrations
  rw [List.map_eq_nil_iff, List.filter_eq_nil_iff]
  simp

/-- Unfolding equation for `_cross_table_statistics` on an unloaded dataset. -/
theorem cross_table_statistics_none (ds : DataSet) (z t : String)
    (h : ds.data = none) :
    ds.cross_table_statistics z t = .error .emptyDatasetError := by
  unfold DataSet.cross_table_statistics
  rw [h]

/-- Unfolding equation for `_cross_table_statistics` on a loaded dataset. -/
theorem cross_table_statistics_some (ds : DataSet) (rows : List Reading) (z t : String)
    (h : ds.data = some rows) :
    ds.cross_table_statistics z t =
      match matchingConcentrations rows z t with
      | [] => .error .noMatchingItems
      | x :: xs => .ok (pyMin x xs, (x :: xs).sum / ((x :: xs).length : ℚ), pyMax x xs) := by
  unfold DataSet.cross_table_statistics
  rw [h]

/-- Sample data used by the concrete witnesses: the rows of
`load_default_data` in the sample system file. -/
def sampleRows : List Reading :=
  [⟨"12345", "Morning", 11/10⟩, ⟨"94022", "Morning", 22/10⟩,
   ⟨"94040", "Morning", 3⟩, ⟨"94022", "Midday", 1⟩,
   ⟨"94040", "Morning", 1⟩, ⟨"94022", "Evening", 32/10⟩]

/-- The sample dataset after loading `sampleRows`. -/
def sampleDS : DataSet := (DataSet.init "").load sampleRows

/-! ## C1, C2, C9: the statistics computation -/

/-- C1: on a loaded dataset, whenever at least one reading matches both
descriptors under exact case-sensitive string equality,
`statistics_for` returns `.ok (mn, mean, mx)` where the mean is the sum of
the matching concentrations divided by their count with no rounding, and
`mn` / `mx` are respectively a least and a greatest member of the matching
concentrations. -/
theorem C1_statistics_for_min_mean_max (ds : DataSet) (rows : List Reading)
    (z t : String) (hload : ds.data = some rows)
    (hne : matchingConcentrations rows z t ≠ []) :
    ∃ mn mx,
      ds.cross_table_statistics z t =
        .ok (mn, (matchingConcentrations rows z t).sum /
          ((matchingConcentrations rows z t).length : ℚ), mx) ∧
      mn ∈ matchingConcentrations rows z t ∧
      mx ∈ matchingConcentrations rows z t ∧
      (∀ y ∈ matchingConcentrations rows z t, mn ≤ y) ∧
      (∀ y ∈ matchingConcentrations rows z t, y ≤ mx) := by
  rw [cross_table_statistics_some ds rows z t hload]
  cases hm : matchingConcentrations rows z t with
  | nil => exact absurd hm hne
  | cons x xs =>
    exact ⟨pyMin x xs, pyMax x xs, rfl, pyMin_mem xs x, pyMax_mem xs x,
      fun y hy => pyMin_le xs x y hy, fun y hy => le_pyMax xs x y hy⟩

/-- C1 witness: a concrete instantiation on the sample dataset. -/
theorem C1_statistics_for_min_mean_max_witness :
    sampleDS.data = some sampleRows ∧
    matchingConcentrations sampleRows "94040" "Morning" ≠ [] ∧
    ∃ mn mx,
      sampleDS.cross_table_statistics "94040" "Morning" =
        .ok (mn, (matchingConcentrations sampleRows "94040" "Morning").sum /
          ((matchingConcentrations sampleRows "94040" "Morning").length : ℚ), mx) ∧
      mn ∈ matchingConcentrations sampleRows "94040" "Morning" ∧
      mx ∈ matchingConcentrations sampleRows "94040" "Morning" ∧
      (∀ y ∈ matchingConcentrations sampleRows "94040" "Morning", mn ≤ y) ∧
      (∀ y ∈ matchingConcentrations sampleRows "94040" "Morning", y ≤ mx) :=
  ⟨rfl, by decide,
    C1_statistics_for_min_mean_max sampleDS sampleRows "94040" "Morning" rfl (by decide)⟩

/-- C2: `statistics_for` fails with `EmptyDatasetError` iff no load has
occurred (`_data` is `None`); on a loaded dataset it fails with
`NoMatchingItems` iff no reading matches both descriptors; and the call
(like every failure case) leaves the dataset state unchanged. -/
theorem C2_statistics_for_error_conditions (ds : DataSet) (z t : String) :
    (ds.cross_table_statistics z t = .error .emptyDatasetError ↔ ds.data = none) ∧
    (∀ rows, ds.data = some rows →
      (ds.cross_table_statistics z t = .error .noMatchingItems ↔
        ∀ r ∈ rows, ¬(r.zip = z ∧ r.time = t))) ∧
    (ds.cross_table_statistics_run z t).2 = ds := by
  refine ⟨?_, ?_, rfl⟩
  · cases hd : ds.data with
    | none => rw [cross_table_statistics_none ds z t hd]; simp
    | some rows =>
      rw [cross_table_statistics_some ds rows z t hd]
      cases hm : matchingConcentrations rows z t with
      | nil => simp [hd]
      | cons x xs => simp [hd]
  · intro rows hrows
    rw [← matchingConcentrations_eq_nil rows z t]
    rw [cross_table_statistics_some ds rows z t hrows]
    cases hm : matchingConcentrations rows z t with
    | nil => simp
    | cons x xs => simp

/-- C2 witness: concrete instantiations on an unloaded and a loaded
dataset. -/
theorem C2_statistics_for_error_conditions_witness :
    ((DataSet.init "h").cross_table_statistics "z" "t" = .error .emptyDatasetError ↔
      (DataSet.init "h").data = none) ∧
    (sampleDS.cross_table_statistics "99999" "Morning" = .error .noMatchingItems ↔
      ∀ r ∈ sampleRows, ¬(r.zip = "99999" ∧ r.time = "Morning")) :=
  ⟨(C2_statistics_for_error_conditions (DataSet.init "h") "z" "t").1,
    (C2_statistics_for_error_conditions sampleDS "99999" "Morning").2.1 sampleRows rfl⟩

/-- C9: for every (zip, time) pair present in the readings, the triple
returned by `statistics_for` satisfies min ≤ average ≤ max, and min and
max are members of the matching concentration set. -/
theorem C9_statistics_for_ordered (ds : DataSet) (rows : List Reading)
    (z t : String) (hload : ds.data = some rows)
    (r : Reading) (hr : r ∈ rows) (hz : r.zip = z) (ht : r.time = t) :
    ∃ mn avg mx,
      ds.cross_table_statistics z t = .ok (mn, avg, mx) ∧
      mn ≤ avg ∧ avg ≤ mx ∧
      mn ∈ matchingConcentrations rows z t ∧
      mx ∈ matchingConcentrations rows z t := by
  have hmem : r.conc ∈ matchingConcentrations rows z t := by
    unfold matchingConcentrations
    refine List.mem_map.mpr ⟨r, ?_, rfl⟩
    rw [List.mem_filter]
    exact ⟨hr, by simp [hz, ht]⟩
  have hne : matchingConcentrations rows z t ≠ [] := by
    intro h0
    rw [h0] at hmem
    cases hmem
  rw [cross_table_statistics_some ds rows z t hload]
  cases hm : matchingConcentrations rows z t with
  | nil => exact absurd hm hne
  | cons x xs =>
    have hlen : (0 : ℚ) < ((x :: xs).length : ℚ) := by
      have : 0 < (x :: xs).length := List.length_pos_of_ne_nil (List.cons_ne_nil x xs)
      exact_mod_cast this
    have hminle : ∀ y ∈ x :: xs, pyMin x xs ≤ y := fun y hy => pyMin_le xs x y hy
    have hlemax : ∀ y ∈ x :: xs, y ≤ pyMax x xs := fun y hy => le_pyMax xs x y hy
    have hsum_lo : ((x :: xs).length : ℚ) * pyMin x xs ≤ (x :: xs).sum :=
      length_mul_le_sum (x :: xs) (pyMin x xs) hminle
    have hsum_hi : (x :: xs).sum ≤ ((x :: xs).length : ℚ) * pyMax x xs :=
      sum_le_length_mul (x :: xs) (pyMax x xs) hlemax
    refine ⟨pyMin x xs, (x :: xs).sum / ((x :: xs).length : ℚ), pyMax x xs, rfl, ?_, ?_,
      pyMin_mem xs x, pyMax_mem xs x⟩
    · rw [le_div_iff₀ hlen]
      calc pyMin x xs * ((x :: xs).length : ℚ)
          = ((x :: xs).length : ℚ) * pyMin x xs := by ring
        _ ≤ (x :: xs).sum := hsum_lo
    · rw [div_le_iff₀ hlen]
      calc (x :: xs).sum ≤ ((x :: xs).length : ℚ) * pyMax x xs := hsum_hi
        _ = pyMax x xs * ((x :: xs).length : ℚ) := by ring

/-- C9 witness: a concrete instantiation on the sample dataset. -/
theorem C9_statistics_for_ordered_witness :
    sampleDS.data = some sampleRows ∧
    (⟨"94040", "Morning", 3⟩ : Reading) ∈ sampleRows ∧
    ∃ mn avg mx,
      sampleDS.cross_table_statistics "94040" "Morning" = .ok (mn, avg, mx) ∧
      mn ≤ avg ∧ avg ≤ mx ∧
      mn ∈ matchingConcentrations sampleRows "94040" "Morning" ∧
      mx ∈ matchingConcentrations sampleRows "94040" "Morning" :=
  ⟨rfl, by decide,
    C9_statistics_for_ordered sampleDS sampleRows "94040" "Morning" rfl
      ⟨"94040", "Morning", 3⟩ (by decide) rfl rfl⟩

/-! ## Helper lemmas about the zip-state dictionary -/

theorem zipLookup_isSome_iff : ∀ (d : List (String × Bool)) (k : String),
    (zipLookup d k).isSome ↔ k ∈ d.map Prod.fst := by
  intro d k
  induction d with
  | nil => simp [zipLookup]
  | cons p rest ih =>
    rw [zipLookup]
    by_cases h : p.1 = k
    · simp [h]
    · rw [if_neg h]
      simp only [List.map_cons, List.mem_cons]
      rw [ih]
      constructor
      · exact fun hmem => Or.inr hmem
      · rintro (h1 | h1)
        · exact absurd h1.symm h
        · exact h1

theorem toggleUpdate_map_fst (d : List (String × Bool)) (k : String) :
    (d.map (fun p => if p.1 = k then (p.1, !p.2) else p)).map Prod.fst = d.map Prod.fst := by
  induction d with
  | nil => rfl
  | cons p rest ih => by_cases h : p.1 = k <;> simp [h, ih]

theorem setTrueUpdate_map_fst (d : List (String × Bool)) (k : String) :
    (d.map (fun p => if p.1 = k then (p.1, true) else p)).map Prod.fst = d.map Prod.fst := by
  induction d with
  | nil => rfl
  | cons p rest ih => by_cases h : p.1 = k <;> simp [h, ih]

theorem zipLookup_toggle_self : ∀ (d : List (String × Bool)) (k : String) (b : Bool),
    zipLookup d k = some b →
    zipLookup (d.map (fun p => if p.1 = k then (p.1, !p.2) else p)) k = some (!b) := by
  intro d
  induction d with
  | nil => intro k b h; cases h
  | cons p rest ih =>
    intro k b h
    by_cases hp : p.1 = k
    · rw [zipLookup, if_pos hp] at h
      injection h with hb
      simp [zipLookup, hp, hb]
    · rw [zipLookup, if_neg hp] at h
      simp only [List.map_cons, if_neg hp]
      rw [zipLookup, if_neg hp]
      exact ih k b h

theorem zipLookup_toggle_other : ∀ (d : List (String × Bool)) (k w : String), w ≠ k →
    zipLookup (d.map (fun p => if p.1 = k then (p.1, !p.2) else p)) w = zipLookup d w := by
  intro d
  induction d with
  | nil => intro k w _; rfl
  | cons p rest ih =>
    intro k w hw
    by_cases hp : p.1 = k
    · have hpw : ¬(p.1 = w) := by rw [hp]; exact fun hh => hw hh.symm
      simp only [List.map_cons, if_pos hp]
      rw [zipLookup, zipLookup, if_neg hpw, if_neg hpw]
      exact ih k w hw
    · simp only [List.map_cons, if_neg hp]
      by_cases hpw : p.1 = w
      · rw [zipLookup, zipLookup, if_pos hpw, if_pos hpw]
      · rw [zipLookup, zipLookup, if_neg hpw, if_neg hpw]
        exact ih k w hw

theorem toggle_toggle_id (d : List (String × Bool)) (z : String) :
    ((d.map (fun p => if p.1 = z then (p.1, !p.2) else p)).map
      (fun p => if p.1 = z then (p.1, !p.2) else p)) = d := by
  induction d with
  | nil => rfl
  | cons p rest ih =>
    by_cases h : p.1 = z
    · simp only [List.map_cons, ih]
      rw [if_pos h]
      simp only [if_pos h, Bool.not_not]
    · simp [h, ih]

/-! ## Helper lemmas about label derivation on load -/

theorem mem_insertNew (acc : List String) (x z : String) :
    z ∈ insertNew acc x ↔ z ∈ acc ∨ z = x := by
  unfold insertNew
  by_cases h : x ∈ acc
  · rw [if_pos h]
    constructor
    · exact Or.inl
    · rintro (h1 | h1)
      · exact h1
      · rw [h1]; exact h
  · rw [if_neg h]
    simp

theorem nodup_insertNew (acc : List String) (x : String) (h : acc.Nodup) :
    (insertNew acc x).Nodup := by
  unfold insertNew
  by_cases hx : x ∈ acc
  · rw [if_pos hx]; exact h
  · rw [if_neg hx]
    rw [List.nodup_append]
    exact ⟨h, List.nodup_singleton x,
      fun a ha hax => hx ((List.mem_singleton.mp hax) ▸ ha)⟩

theorem mem_foldl_insertNew : ∀ (l acc : List String) (z : String),
    z ∈ l.foldl insertNew acc ↔ z ∈ acc ∨ z ∈ l := by
  intro l
  induction l with
  | nil => intro acc z; simp
  | cons x xs ih =>
    intro acc z
    rw [List.foldl_cons, ih, mem_insertNew]
    simp only [List.mem_cons]
    tauto

theorem nodup_foldl_insertNew : ∀ (l acc : List String), acc.Nodup →
    (l.foldl insertNew acc).Nodup := by
  intro l
  induction l with
  | nil => intro acc h; exact h
  | cons x xs ih =>
    intro acc h
    rw [List.foldl_cons]
    exact ih (insertNew acc x) (nodup_insertNew acc x h)

theorem dictInsertTrue_map_fst (d : List (String × Bool)) (k : String) :
    (dictInsertTrue d k).map Prod.fst = insertNew (d.map Prod.fst) k := by
  unfold dictInsertTrue insertNew
  by_cases h : (zipLookup d k).isSome
  · rw [if_pos h, if_pos ((zipLookup_isSome_iff d k).mp h), setTrueUpdate_map_fst]
  · rw [if_neg h, if_neg (fun hm => h ((zipLookup_isSome_iff d k).mpr hm))]
    simp

theorem dictInsertTrue_values (d : List (String × Bool)) (k : String)
    (h : ∀ p ∈ d, p.2 = true) : ∀ p ∈ dictInsertTrue d k, p.2 = true := by
  unfold dictInsertTrue
  by_cases hs : (zipLookup d k).isSome
  · rw [if_pos hs]
    intro p hp
    rcases List.mem_map.mp hp with ⟨q, hq, hpq⟩
    by_cases hq1 : q.1 = k
    · rw [← hpq, if_pos hq1]
    · rw [← hpq, if_neg hq1]
      exact h q hq
  · rw [if_neg hs]
    intro p hp
    rcases List.mem_append.mp hp with h1 | h1
    · exact h p h1
    · rw [List.mem_singleton.mp h1]

theorem buildZips_keys_aux : ∀ (rows : List Reading) (d : List (String × Bool)),
    ((rows.foldl (fun d r => dictInsertTrue d r.zip) d).map Prod.fst) =
      (rows.map Reading.zip).foldl insertNew (d.map Prod.fst) := by
  intro rows
  induction rows with
  | nil => intro d; rfl
  | cons r rs ih =>
    intro d
    rw [List.foldl_cons, List.map_cons, List.foldl_cons, ih, dictInsertTrue_map_fst]

theorem buildZips_values_aux : ∀ (rows : List Reading) (d : List (String × Bool)),
    (∀ p ∈ d, p.2 = true) →
    ∀ p ∈ rows.foldl (fun d r => dictInsertTrue d r.zip) d, p.2 = true := by
  intro rows
  induction rows with
  | nil => intro d h; exact h
  | cons r rs ih =>
    intro d h
    rw [List.foldl_cons]
    exact ih (dictInsertTrue d r.zip) (dictInsertTrue_values d r.zip h)

/-! ## C4: load resets the zip states -/

/-- C4: after every load, regardless of the prior contents, the keys of
`zip_states` are exactly the distinct zip codes of the loaded readings in
first-occurrence order, without duplicates, all flags `true`, the number
of entries is the number of distinct zip codes, and the result does not
depend on the pre-load state (prior toggles are discarded). -/
theorem C4_load_resets_zip_states (ds : DataSet) (rows : List Reading) :
    ((ds.load rows).zips.map Prod.fst = firstSeen (rows.map Reading.zip)) ∧
    (∀ p ∈ (ds.load rows).zips, p.2 = true) ∧
    ((ds.load rows).zips.map Prod.fst).Nodup ∧
    (∀ z, z ∈ (ds.load rows).zips.map Prod.fst ↔ z ∈ rows.map Reading.zip) ∧
    ((ds.load rows).zips.length = (rows.map Reading.zip).toFinset.card) ∧
    (∀ ds2 : DataSet, (ds2.load rows).zips = (ds.load rows).zips) := by
  have hkeys : (ds.load rows).zips.map Prod.fst = firstSeen (rows.map Reading.zip) := by
    show (buildZips rows).map Prod.fst = firstSeen (rows.map Reading.zip)
    rw [buildZips, buildZips_keys_aux rows []]
    rfl
  have hnodup : ((ds.load rows).zips.map Prod.fst).Nodup := by
    rw [hkeys]
    exact nodup_foldl_insertNew (rows.map Reading.zip) [] List.nodup_nil
  have hmem : ∀ z, z ∈ (ds.load rows).zips.map Prod.fst ↔ z ∈ rows.map Reading.zip := by
    intro z
    rw [hkeys]
    unfold firstSeen
    rw [mem_foldl_insertNew]
    simp
  refine ⟨hkeys, ?_, hnodup, hmem, ?_, fun ds2 => rfl⟩
  · exact buildZips_values_aux rows [] (by intro p hp; cases hp)
  · have h1 : ((ds.load rows).zips.map Prod.fst).toFinset =
        (rows.map Reading.zip).toFinset := by
      apply Finset.ext
      intro a
      rw [List.mem_toFinset, List.mem_toFinset]
      exact hmem a
    have h2 := List.toFinset_card_of_nodup hnodup
    rw [h1] at h2
    have h3 : ((ds.load rows).zips.map Prod.fst).length = (ds.load rows).zips.length :=
      List.length_map _ _
    exact (h2.trans h3).symm

/-- C4 witness: the load properties instantiated on the sample rows. -/
theorem C4_load_resets_zip_states_witness :
    (((DataSet.init "").load sampleRows).zips.map Prod.fst =
      firstSeen (sampleRows.map Reading.zip)) ∧
    (∀ p ∈ ((DataSet.init "").load sampleRows).zips, p.2 = true) ∧
    (((DataSet.init "").load sampleRows).zips.map Prod.fst).Nodup ∧
    (∀ z, z ∈ ((DataSet.init "").load sampleRows).zips.map Prod.fst ↔
      z ∈ sampleRows.map Reading.zip) ∧
    (((DataSet.init "").load sampleRows).zips.length =
      (sampleRows.map Reading.zip).toFinset.card) ∧
    (∀ ds2 : DataSet, (ds2.load sampleRows).zips =
      ((DataSet.init "").load sampleRows).zips) :=
  C4_load_resets_zip_states (DataSet.init "") sampleRows

/-! ## C6, C7, C8: header setter and zip toggling -/

/-- C6: the header setter accepts every string of length at most 30 (the
stored header then equals that string, all other fields unchanged) and
fails with `ValueError` on every string of length 31 or more, leaving the
object state unchanged. -/
theorem C6_header_setter (ds : DataSet) (s : String) :
    (s.length ≤ 30 → ds.setHeader s = .ok { ds with header := s }) ∧
    (31 ≤ s.length → ds.setHeader s = .error .valueError ∧ ds.applySetHeader s = ds) := by
  constructor
  · intro h
    unfold DataSet.setHeader
    rw [if_pos h]
  · intro h
    have hn : ¬(s.length ≤ 30) := by omega
    refine ⟨?_, ?_⟩
    · unfold DataSet.setHeader
      rw [if_neg hn]
    · unfold DataSet.applySetHeader DataSet.setHeader
      rw [if_neg hn]

/-- C6 witness: a 5-character header is accepted, a 31-character header is
rejected without mutation. -/
theorem C6_header_setter_witness :
    ((5 : Nat) ≤ 30 ∧
      (DataSet.init "old").setHeader "short" = .ok { DataSet.init "old" with header := "short" }) ∧
    ((31 : Nat) ≤ 31 ∧
      (DataSet.init "old").setHeader "0123456789012345678901234567890" = .error .valueError ∧
      (DataSet.init "old").applySetHeader "0123456789012345678901234567890" = DataSet.init "old") :=
  ⟨⟨by decide, (C6_header_setter (DataSet.init "old") "short").1 (by decide)⟩,
    ⟨by decide, (C6_header_setter (DataSet.init "old") "0123456789012345678901234567890").2
      (by decide)⟩⟩

/-- C7: toggling an absent zip code fails with `LookupError` and leaves the
whole state unchanged; toggling a present zip code flips exactly its flag,
leaving the readings, header, time labels, the key set and order of
`zip_states`, and every other flag unchanged. -/
theorem C7_toggle_zip (ds : DataSet) (z : String) :
    (zipLookup ds.zips z = none →
      ds.toggle_zip z = .error .lookupError ∧ ds.applyToggle z = ds) ∧
    (∀ b, zipLookup ds.zips z = some b →
      ∃ ds2, ds.toggle_zip z = .ok ds2 ∧
        ds2.data = ds.data ∧ ds2.header = ds.header ∧ ds2.times = ds.times ∧
        ds2.zips.map Prod.fst = ds.zips.map Prod.fst ∧
        zipLookup ds2.zips z = some (!b) ∧
        (∀ w, w ≠ z → zipLookup ds2.zips w = zipLookup ds.zips w)) := by
  constructor
  · intro h
    refine ⟨?_, ?_⟩
    · unfold DataSet.toggle_zip
      rw [h]
    · unfold DataSet.applyToggle DataSet.toggle_zip
      rw [h]
  · intro b hb
    refine ⟨{ ds with zips := ds.zips.map (fun p => if p.1 = z then (p.1, !p.2) else p) },
      ?_, rfl, rfl, rfl, toggleUpdate_map_fst ds.zips z,
      zipLookup_toggle_self ds.zips z b hb,
      fun w hw => zipLookup_toggle_other ds.zips z w hw⟩
    unfold DataSet.toggle_zip
    rw [hb]

/-- C7 witness: concrete instantiations of both branches on the sample
dataset. -/
theorem C7_toggle_zip_witness :
    (zipLookup sampleDS.zips "99999" = none ∧
      sampleDS.toggle_zip "99999" = .error .lookupError ∧
      sampleDS.applyToggle "99999" = sampleDS) ∧
    (zipLookup sampleDS.zips "94022" = some true ∧
      ∃ ds2, sampleDS.toggle_zip "94022" = .ok ds2 ∧
        ds2.data = sampleDS.data ∧ ds2.header = sampleDS.header ∧
        ds2.times = sampleDS.times ∧
        ds2.zips.map Prod.fst = sampleDS.zips.map Prod.fst ∧
        zipLookup ds2.zips "94022" = some (!true) ∧
        (∀ w, w ≠ "94022" → zipLookup ds2.zips w = zipLookup sampleDS.zips w)) :=
  ⟨⟨by decide, (C7_toggle_zip sampleDS "99999").1 (by decide)⟩,
    ⟨by decide, (C7_toggle_zip sampleDS "94022").2 true (by decide)⟩⟩

/-- C8: for every zip code present in `zip_states`, toggling it twice in
succession restores the whole dataset state (toggling is an involution). -/
theorem C8_toggle_involution (ds : DataSet) (z : String) (b : Bool)
    (hb : zipLookup ds.zips z = some b) :
    (ds.toggle_zip z).bind (fun d => d.toggle_zip z) = .ok ds := by
  have h1 : ds.toggle_zip z =
      .ok { ds with zips := ds.zips.map (fun p => if p.1 = z then (p.1, !p.2) else p) } := by
    unfold DataSet.toggle_zip
    rw [hb]
  rw [h1]
  show ({ ds with zips := ds.zips.map (fun p => if p.1 = z then (p.1, !p.2) else p) }
    : DataSet).toggle_zip z = .ok ds
  have h2 := zipLookup_toggle_self ds.zips z b hb
  unfold DataSet.toggle_zip
  rw [show ({ ds with zips := ds.zips.map (fun p => if p.1 = z then (p.1, !p.2) else p) }
    : DataSet).zips = ds.zips.map (fun p => if p.1 = z then (p.1, !p.2) else p) from rfl, h2]
  rw [toggle_toggle_id]

/-- C8 witness: toggling zip `94022` of the sample dataset twice restores
the state. -/
theorem C8_toggle_involution_witness :
    zipLookup sampleDS.zips "94022" = some true ∧
    (sampleDS.toggle_zip "94022").bind (fun d => d.toggle_zip "94022") = .ok sampleDS :=
  ⟨by decide, C8_toggle_involution sampleDS "94022" true (by decide)⟩

/-! ## C5: the header length invariant -/

/-- The dataset states reachable through the public operations from a
construction whose initial header argument is within the 30-character
bound. -/
inductive ReachableFromValidInit : DataSet → Prop where
  | init (h : String) (hlen : h.length ≤ 30) : ReachableFromValidInit (DataSet.init h)
  | setHeader (ds ds2 : DataSet) (s : String) (hds : ReachableFromValidInit ds)
      (hok : ds.setHeader s = .ok ds2) : ReachableFromValidInit ds2
  | load (ds : DataSet) (rows : List Reading) (hds : ReachableFromValidInit ds) :
      ReachableFromValidInit (ds.load rows)
  | toggle (ds ds2 : DataSet) (z : String) (hds : ReachableFromValidInit ds)
      (hok : ds.toggle_zip z = .ok ds2) : ReachableFromValidInit ds2

/-- C5 counterexample: the constructor of `purple_air_system.py` assigns
`self._header = header` directly, bypassing the validating setter, so a
dataset just constructed with a 31-character header argument stores it. -/
theorem C5_counterexample :
    (DataSet.init "0123456789012345678901234567890").header =
      "0123456789012345678901234567890" ∧
    30 < (DataSet.init "0123456789012345678901234567890").header.length :=
  ⟨rfl, by decide⟩

/-- C5 (amended): in every state reachable through the operations from a
dataset constructed with an initial header of length at most 30 (in
particular the default empty header used by the program's driver), the
stored header has length at most 30. -/
theorem C5_header_invariant (ds : DataSet) (h : ReachableFromValidInit ds) :
    ds.header.length ≤ 30 := by
  induction h with
  | init h hlen => exact hlen
  | setHeader ds ds2 s hds hok ih =>
    unfold DataSet.setHeader at hok
    by_cases hl : s.length ≤ 30
    · rw [if_pos hl] at hok
      injection hok with h2
      rw [← h2]
      exact hl
    · rw [if_neg hl] at hok
      cases hok
  | load ds rows hds ih => exact ih
  | toggle ds ds2 z hds hok ih =>
    unfold DataSet.toggle_zip at hok
    cases hz : zipLookup ds.zips z with
    | none => rw [hz] at hok; cases hok
    | some b =>
      rw [hz] at hok
      injection hok with h2
      rw [← h2]
      exact ih

/-- C5 witness: concrete instantiation of the amended invariant at a
freshly constructed dataset with a valid header. -/
theorem C5_header_invariant_witness :
    ReachableFromValidInit (DataSet.init "CLEAN AIR 2022") ∧
    (DataSet.init "CLEAN AIR 2022").header.length ≤ 30 :=
  ⟨.init "CLEAN AIR 2022" (by decide),
    C5_header_invariant (DataSet.init "CLEAN AIR 2022") (.init "CLEAN AIR 2022" (by decide))⟩

/-! ## C10: the query operations do not mutate the dataset -/

/-- C10: `get_zips`, `statistics_for` and the cross-table render, viewed as
state transformers (their method bodies contain no field assignment),
return a post-state whose readings, zip states, time labels and header all
equal the pre-state's, for every state and every argument. -/
theorem C10_queries_do_not_mutate (ds : DataSet) (z t : String) (stat : Stats) :
    ds.get_zips_run.2 = ds ∧
    (ds.cross_table_statistics_run z t).2 = ds ∧
    (ds.display_cross_table_run stat).2 = ds ∧
    ds.get_zips_run.2.data = ds.data ∧
    (ds.cross_table_statistics_run z t).2.zips = ds.zips ∧
    (ds.cross_table_statistics_run z t).2.times = ds.times ∧
    (ds.display_cross_table_run stat).2.header = ds.header :=
  ⟨rfl, rfl, rfl, rfl, rfl, rfl, rfl⟩

/-- C10 witness: the purity properties instantiated on the sample
dataset. -/
theorem C10_queries_do_not_mutate_witness :
    sampleDS.get_zips_run.2 = sampleDS ∧
    (sampleDS.cross_table_statistics_run "94022" "Morning").2 = sampleDS ∧
    (sampleDS.display_cross_table_run Stats.AVG).2 = sampleDS ∧
    sampleDS.get_zips_run.2.data = sampleDS.data ∧
    (sampleDS.cross_table_statistics_run "94022" "Morning").2.zips = sampleDS.zips ∧
    (sampleDS.cross_table_statistics_run "94022" "Morning").2.times = sampleDS.times ∧
    (sampleDS.display_cross_table_run Stats.AVG).2.header = sampleDS.header :=
  C10_queries_do_not_mutate sampleDS "94022" "Morning" Stats.AVG

/-! ## C3: the cross-table render -/

theorem mapM_ok {α β : Type} (f : α → Except Err β) (g : α → β) :
    ∀ l : List α, (∀ a ∈ l, f a = .ok (g a)) → l.mapM f = .ok (l.map g) := by
  intro l
  induction l with
  | nil => intro h; rfl
  | cons x xs ih =>
    intro h
    simp only [List.mapM_cons, h x (List.mem_cons_self x xs),
      ih (fun a ha => h a (List.mem_cons_of_mem x ha)), List.map_cons]
    rfl

/-- On a loaded dataset every cell renders without an uncaught exception:
the In-cell `try` recovers `NoMatchingItems`, and `EmptyDatasetError`
cannot occur. -/
theorem cellFor_ok (ds : DataSet) (rows : List Reading) (stat : Stats) (z t : String)
    (hload : ds.data = some rows) :
    cellFor ds stat z t = .ok (specCell ds stat z t) := by
  unfold cellFor specCell
  rw [cross_table_statistics_some ds rows z t hload]
  cases hm : matchingConcentrations rows z t with
  | nil => rfl
  | cons x xs => rfl

/-- Unfolding equation for `display_cross_table` on an unloaded dataset. -/
theorem display_cross_table_none (ds : DataSet) (stat : Stats) (h : ds.data = none) :
    ds.display_cross_table stat = .ok ["Please load a dataset first"] := by
  unfold DataSet.display_cross_table
  rw [h]

/-- Unfolding equation for `display_cross_table` on a loaded dataset. -/
theorem display_cross_table_some (ds : DataSet) (rows : List Reading) (stat : Stats)
    (h : ds.data = some rows) :
    ds.display_cross_table stat =
      (if rows.isEmpty then .ok ["Please load a dataset first"]
      else do
        let body ← (ds.zips.filter (fun p => p.2)).mapM (fun p => do
          let cells ← ds.times.mapM (fun t => cellFor ds stat p.1 t)
          pure (padRight 5 p.1 ++ String.join cells))
        pure (("     " ++ String.join (ds.times.map (padLeft 10))) :: body)) := by
  unfold DataSet.display_cross_table
  rw [h]

/-- C3 (amended): when no load has occurred, or the load had zero rows
(Python's `if not self._data:` is truthy for both `None` and an empty
list), the render produces only the "no dataset" notice; for every
dataset loaded with at least one reading it outputs the table whose
columns are the dataset's time labels, whose rows are exactly the active
zip codes in `zip_states` order (inactive zips omitted), and whose cells
are the selected element of `statistics_for` formatted to 2 decimal
places or `N/A` right-aligned in the same column width. -/
theorem C3_display_cross_table (ds : DataSet) (stat : Stats) :
    (ds.data = none → ds.display_cross_table stat = .ok ["Please load a dataset first"]) ∧
    (ds.data = some [] → ds.display_cross_table stat = .ok ["Please load a dataset first"]) ∧
    (∀ rows, ds.data = some rows → rows ≠ [] →
      ds.display_cross_table stat = .ok (renderSpec ds stat)) := by
  refine ⟨?_, ?_, ?_⟩
  · intro h
    exact display_cross_table_none ds stat h
  · intro h
    rw [display_cross_table_some ds [] stat h]
    rfl
  · intro rows h hne
    rw [display_cross_table_some ds rows stat h]
    have hemp : rows.isEmpty = false := by
      cases rows with
      | nil => exact absurd rfl hne
      | cons a l => rfl
    rw [hemp, if_neg Bool.false_ne_true]
    have hrow : ∀ p ∈ ds.zips.filter (fun p => p.2),
        (do
          let cells ← ds.times.mapM (fun t => cellFor ds stat p.1 t)
          pure (padRight 5 p.1 ++ String.join cells) : Except Err String) =
          .ok (padRight 5 p.1 ++ String.join (ds.times.map (specCell ds stat p.1))) := by
      intro p hp
      rw [mapM_ok (fun t => cellFor ds stat p.1 t) (specCell ds stat p.1) ds.times
        (fun a ha => cellFor_ok ds rows stat p.1 a h)]
      rfl
    rw [mapM_ok _ (fun p => padRight 5 p.1 ++ String.join (ds.times.map (specCell ds stat p.1)))
      (ds.zips.filter (fun p => p.2)) hrow]
    rfl

/-- C3 counterexample: a dataset loaded with zero rows has `readings` set,
yet the render produces only the "no dataset" notice and no table. -/
theorem C3_counterexample :
    ((DataSet.init "").load []).data = some [] ∧
    ((DataSet.init "").load []).display_cross_table Stats.MIN =
      .ok ["Please load a dataset first"] ∧
    renderSpec ((DataSet.init "").load []) Stats.MIN ≠ ["Please load a dataset first"] :=
  ⟨rfl, rfl, by decide⟩

/-- C3 witness: the amended table clause instantiated on the sample
dataset. -/
theorem C3_display_cross_table_witness :
    sampleDS.data = some sampleRows ∧ sampleRows ≠ [] ∧
    sampleDS.display_cross_table Stats.MIN = .ok (renderSpec sampleDS Stats.MIN) :=
  ⟨rfl, by decide,
    (C3_display_cross_table sampleDS Stats.MIN).2.2 sampleRows rfl (by decide)⟩

end PurpleAir
